import Mathlib

/-!
A shallow embedding of `prow/plugins/lgtm/lgtm.go`.

External calls made through the `githubClient` / `ghLabelClient` interfaces are
modelled by an environment (`Env`, `PREnv`) holding the result each call would
return, and each handler returns, next to its Go return value, the list of
calls it issued, in order.  Fallible Go calls return `Except`; on the
logged-and-continue paths the handlers substitute the Go zero value (nil slice,
empty string), which is what the client implementations return next to a
non-nil error.
-/

namespace Lgtm

/-! ### Regex semantics (lgtm.go lines 36-37)

`lgtmRe = (?mi)^/lgtm(?: no-issue)?\s*$` and
`lgtmCancelRe = (?mi)^/lgtm cancel\s*$`.

With the `m` flag, `^` matches at a line start and `$` at a line end (before a
`\n` or at the end of the string).  `\s` is the Go class `[\t\n\f\r ]`.  A whitespace
run matched by `\s*` that reaches a line end can be cut at the first `\n`, so
the whole regex matches a body iff some `\n`-separated line of the body, with
trailing `[\t\f\r ]` stripped and ASCII-lowercased (the `i` flag), is exactly
the literal.  The embedding states matching that way, per line.
-/

/-- The Go `\s` character class restricted to characters that can occur inside a
`\n`-separated line: `\t`, `\f`, `\r`, and space. -/
def isGoLineSpace (c : Char) : Bool :=
  c == ' ' || c == '\t' || c == '\x0c' || c == '\r'

/-- Strip trailing whitespace (what `\s*$` absorbs within the line). -/
def trimTrailing (l : List Char) : List Char :=
  (l.reverse.dropWhile isGoLineSpace).reverse

/-- ASCII case folding of a line, for the `i` flag of the regexes. -/
def lowerLine (l : List Char) : List Char :=
  l.map Char.toLower

/-- One line matches `lgtmRe`: after trimming trailing whitespace and case
folding it is exactly `/lgtm` or `/lgtm no-issue`. -/
def lineLgtm (l : List Char) : Bool :=
  lowerLine (trimTrailing l) == "/lgtm".toList ||
    lowerLine (trimTrailing l) == "/lgtm no-issue".toList

/-- One line matches `lgtmCancelRe`: after trimming trailing whitespace and
case folding it is exactly `/lgtm cancel`. -/
def lineLgtmCancel (l : List Char) : Bool :=
  lowerLine (trimTrailing l) == "/lgtm cancel".toList

/-- Split a character list at every `\n` (the lines the `m` flag ranges over). -/
def splitLines : List Char → List (List Char)
  | [] => [[]]
  | c :: rest =>
    if c = '\n' then [] :: splitLines rest
    else
      match splitLines rest with
      | [] => [[c]]
      | line :: lines => (c :: line) :: lines

/-- The `\n`-separated lines of a comment body. -/
def bodyLines (body : String) : List (List Char) :=
  splitLines body.toList

/-- The test `lgtmRe.MatchString(body)` (lgtm.go line 90). -/
def lgtmReMatch (body : String) : Bool :=
  (bodyLines body).any lineLgtm

/-- The test `lgtmCancelRe.MatchString(body)` (lgtm.go line 92). -/
def lgtmCancelReMatch (body : String) : Bool :=
  (bodyLines body).any lineLgtmCancel

/-! ### Constants (lgtm.go lines 35, 38) -/

def lgtmLabel : String := "lgtm"

def removeLGTMLabelNoti : String :=
  "New changes are detected. LGTM label has been removed."

/-- The constant `github.GenericCommentActionCreated`. -/
def GenericCommentActionCreated : String := "created"

/-- The constant `github.PullRequestActionSynchronize`. -/
def PullRequestActionSynchronize : String := "synchronize"

/-! ### Command classification (lgtm.go lines 89-96)

The handler sets `wantLGTM := true` if `lgtmRe` matches, else `wantLGTM :=
false` if `lgtmCancelRe` matches, else returns with no side effects. -/

inductive Command where
  | wantApprove
  | wantCancel
  | notACommand
deriving DecidableEq

/-- The classification the if/else chain of lines 89-96 performs. -/
def classify (body : String) : Command :=
  if lgtmReMatch body then Command.wantApprove
  else if lgtmCancelReMatch body then Command.wantCancel
  else Command.notACommand

/-! ### Data model (github package types used by the plugin) -/

structure User where
  login : String
deriving DecidableEq

structure Repo where
  owner : User
  name : String
deriving DecidableEq

structure GenericCommentEvent where
  isPR : Bool
  issueState : String
  action : String
  body : String
  htmlURL : String
  user : User
  issueAuthor : User
  assignees : List User
  repo : Repo
  number : Int
deriving DecidableEq

structure Label where
  name : String
deriving DecidableEq

structure IssueComment where
  user : User
  body : String
  id : Int
deriving DecidableEq

structure PRBranch where
  ref : String
  repo : Repo
deriving DecidableEq

structure PullRequest where
  merged : Bool
  number : Int
  base : PRBranch
deriving DecidableEq

structure PullRequestEvent where
  action : String
  pullRequest : PullRequest
deriving DecidableEq

structure PullRequestChange where
  filename : String
deriving DecidableEq

/-- The interface `repoowners.RepoOwnerInterface`: per-file approver and reviewer sets
(`sets.String` is modelled as a list; only membership matters). -/
structure RepoOwner where
  Approvers : String → List String
  Reviewers : String → List String

/-- The type `plugins.Configuration`, restricted to the field the plugin reads:
`config.Owners.SkipCollaborators`. -/
structure Configuration where
  skipCollaboratorsList : List String
deriving DecidableEq

/-! ### Functions of the repository outside src/ -/

/-- Modelled from the spec: `github.NormLogin` (prow github package, not under
src/) — "Identity is case-normalized for set membership comparisons", so the
login is lowercased (character-wise, via the list of characters). -/
def NormLogin (login : String) : String :=
  ⟨login.toList.map Char.toLower⟩

/-- Modelled from the spec: `plugins.FormatResponseRaw` (prow plugins package,
not under src/) — "quote the triggering comment, mention the commenting actor,
append the message". -/
def FormatResponseRaw (body htmlURL login reply : String) : String :=
  "@" ++ login ++ ": " ++ reply ++ "\n\nIn response to [this](" ++ htmlURL ++
    "):\n\n> " ++ body

/-! ### External calls and their results -/

abbrev GoErr := String

/-- One call through the `githubClient` / `ghLabelClient` / owners interfaces,
recorded in order in the trace of the handler. -/
inductive Call where
  | createComment (org repo : String) (number : Int) (body : String)
  | addLabel (org repo : String) (number : Int) (label : String)
  | removeLabel (org repo : String) (number : Int) (label : String)
  | assignIssue (org repo : String) (number : Int) (assignees : List String)
  | isCollaborator (org repo login : String)
  | getIssueLabels (org repo : String) (number : Int)
  | getPullRequest (org repo : String) (number : Int)
  | getPullRequestChanges (org repo : String) (number : Int)
  | listIssueComments (org repo : String) (number : Int)
  | deleteComment (org repo : String) (id : Int)
  | botName
  | loadRepoOwners (org repo ref : String)
deriving DecidableEq

/-- The result each external call would return, fixed per handler invocation. -/
structure Env where
  createComment : Except GoErr Unit
  assignIssue : Except GoErr Unit
  isCollaborator : Except GoErr Bool
  getIssueLabels : Except GoErr (List Label)
  addLabel : Except GoErr Unit
  removeLabel : Except GoErr Unit
  botName : Except GoErr String
  listIssueComments : Except GoErr (List IssueComment)
  getPullRequest : Except GoErr PullRequest
  loadRepoOwners : Except GoErr RepoOwner
  getPullRequestChanges : Except GoErr (List PullRequestChange)

/-! ### Helpers of the plugin (lgtm.go lines 229-268) -/

/-- The helper `skipCollaborators(config, org, repo)` (lgtm.go lines 229-237). -/
def skipCollaborators (config : Configuration) (org repo : String) : Bool :=
  let full := org ++ "/" ++ repo
  config.skipCollaboratorsList.any fun elem => elem == org || elem == full

/-- The helper `loadReviewers(ro, filenames)` (lgtm.go lines 262-268): the union over all
changed files of the approvers and reviewers of each file. -/
def loadReviewers (ro : RepoOwner) (filenames : List String) : List String :=
  filenames.foldl
    (fun reviewers filename =>
      reviewers ++ ro.Approvers filename ++ ro.Reviewers filename) []

/-! ### Label reconciliation (lgtm.go lines 152-189) -/

/-- The labels the loop of lines 158-163 ranges over: the fetched list, or the
nil slice when `GetIssueLabels` failed (the error is only logged, lines
154-157). -/
def fetchedLabels (env : Env) : List Label :=
  match env.getIssueLabels with
  | Except.ok labels => labels
  | Except.error _ => []

/-- The flag `hasLGTM` as computed by lines 153-163. -/
def observedHasLGTM (env : Env) : Bool :=
  (fetchedLabels env).any fun candidate => candidate.name == lgtmLabel

/-- The stale-notification cleanup of lines 172-187, run after a successful
label addition: resolve the bot name, list the comments (failures of either are
logged and replaced with the Go zero value), and delete every comment authored
by the bot whose body is exactly the removal notification. -/
def cleanupCalls (env : Env) (org repo : String) (number : Int) : List Call :=
  let botname := match env.botName with
    | Except.ok b => b
    | Except.error _ => ""
  let comments := match env.listIssueComments with
    | Except.ok cs => cs
    | Except.error _ => []
  [Call.botName, Call.listIssueComments org repo number] ++
    (comments.filter fun comment =>
        comment.user.login == botname && comment.body == removeLGTMLabelNoti).map
      fun comment => Call.deleteComment org repo comment.id

/-- Lines 152-189 of `handle`: fetch labels, then remove the label when present
and unwanted, add it when absent and wanted (followed by stale-notification
cleanup), and do nothing when the observed state already matches. -/
def reconcile (env : Env) (org repo : String) (number : Int) (wantLGTM : Bool) :
    Except GoErr Unit × List Call :=
  let hasLGTM := observedHasLGTM env
  if hasLGTM && !wantLGTM then
    (env.removeLabel,
      [Call.getIssueLabels org repo number, Call.removeLabel org repo number lgtmLabel])
  else if !hasLGTM && wantLGTM then
    match env.addLabel with
    | Except.error err =>
      (Except.error err,
        [Call.getIssueLabels org repo number, Call.addLabel org repo number lgtmLabel])
    | Except.ok _ =>
      (Except.ok (),
        [Call.getIssueLabels org repo number, Call.addLabel org repo number lgtmLabel] ++
          cleanupCalls env org repo number)
  else
    (Except.ok (), [Call.getIssueLabels org repo number])

/-! ### The comment handler (lgtm.go lines 81-190)

The two non-trivial else-if arms of lines 120-150 are named branch functions
so each arm can be analysed on its own; `handle` wires them together exactly as
the if/else chain of the source does. -/

/-- Lines 120-134: assignment-based authorization for a non-author,
non-assignee commenter on a repo without skip-collaborators.  On successful
assignment, fall through to reconciliation; on failure, ask `IsCollaborator`
to pick the message, post it, and stop. -/
def assignBranch (env : Env) (org repo : String) (number : Int)
    (commentAuthor body htmlURL : String) (wantLGTM : Bool) :
    Except GoErr Unit × List Call :=
  match env.assignIssue with
  | Except.ok _ =>
    let rc := reconcile env org repo number wantLGTM
    (rc.1, Call.assignIssue org repo number [commentAuthor] :: rc.2)
  | Except.error _ =>
    let msg := match env.isCollaborator with
      | Except.ok false =>
        "only " ++ org ++ "/" ++ repo ++ " repo collaborators may be assigned issues"
      | _ => "assigning you to the PR failed"
    (env.createComment,
      [Call.assignIssue org repo number [commentAuthor],
        Call.isCollaborator org repo commentAuthor,
        Call.createComment org repo number
          (FormatResponseRaw body htmlURL commentAuthor
            ("changing LGTM is restricted to assignees, and " ++ msg ++ "."))])

/-- Lines 135-150: ownership-based authorization for a non-author commenter on
a skip-collaborators repo.  Load the pull request (for its base ref), the
owners view and the changed files — each failure propagates — then deny unless
the case-normalized commenter is in the approver/reviewer union; on success
fall through to reconciliation. -/
def ownersBranch (env : Env) (org repo : String) (number : Int)
    (commentAuthor body htmlURL : String) (wantLGTM : Bool) :
    Except GoErr Unit × List Call :=
  match env.getPullRequest with
  | Except.error err => (Except.error err, [Call.getPullRequest org repo number])
  | Except.ok pr =>
    match env.loadRepoOwners with
    | Except.error err =>
      (Except.error err,
        [Call.getPullRequest org repo number, Call.loadRepoOwners org repo pr.base.ref])
    | Except.ok ro =>
      match env.getPullRequestChanges with
      | Except.error _ =>
        (Except.error
            ("cannot get PR changes for " ++ org ++ "/" ++ repo ++ "#" ++ toString number),
          [Call.getPullRequest org repo number,
            Call.loadRepoOwners org repo pr.base.ref,
            Call.getPullRequestChanges org repo number])
      | Except.ok changes =>
        if !(loadReviewers ro (changes.map fun change => change.filename)).contains
            (NormLogin commentAuthor) then
          (env.createComment,
            [Call.getPullRequest org repo number,
              Call.loadRepoOwners org repo pr.base.ref,
              Call.getPullRequestChanges org repo number] ++
              [Call.createComment org repo number
                (FormatResponseRaw body htmlURL commentAuthor
                  "adding LGTM is restricted to approvers and reviewers in OWNERS files.")])
        else
          let rc := reconcile env org repo number wantLGTM
          (rc.1,
            [Call.getPullRequest org repo number,
              Call.loadRepoOwners org repo pr.base.ref,
              Call.getPullRequestChanges org repo number] ++ rc.2)

def handle (env : Env) (config : Configuration) (e : GenericCommentEvent) :
    Except GoErr Unit × List Call :=
  if !e.isPR || e.issueState != "open" || e.action != GenericCommentActionCreated then
    (Except.ok (), [])
  else
    match (if lgtmReMatch e.body then some true
           else if lgtmCancelReMatch e.body then some false
           else none) with
    | none => (Except.ok (), [])
    | some wantLGTM =>
      let org := e.repo.owner.login
      let repo := e.repo.name
      let commentAuthor := e.user.login
      let isAssignee := e.assignees.any fun assignee => assignee.login == e.user.login
      let skipCollab := skipCollaborators config org repo
      let isAuthor := e.user.login == e.issueAuthor.login
      if isAuthor && wantLGTM then
        (env.createComment,
          [Call.createComment org repo e.number
            (FormatResponseRaw e.body e.htmlURL commentAuthor
              "you cannot LGTM your own PR.")])
      else if !isAuthor && !isAssignee && !skipCollab then
        assignBranch env org repo e.number commentAuthor e.body e.htmlURL wantLGTM
      else if !isAuthor && skipCollab then
        ownersBranch env org repo e.number commentAuthor e.body e.htmlURL wantLGTM
      else
        reconcile env org repo e.number wantLGTM

/-! ### The synchronize handler (lgtm.go lines 197-227) -/

/-- The error returned by `RemoveLabel`, as `handlePullRequest` distinguishes it:
`*github.LabelNotFound` or anything else. -/
inductive RemoveLabelErr where
  | labelNotFound
  | other (msg : String)
deriving DecidableEq

structure PREnv where
  removeLabel : Except RemoveLabelErr Unit
  createComment : Except GoErr Unit

def handlePullRequest (env : PREnv) (pe : PullRequestEvent) :
    Except GoErr Unit × List Call :=
  if pe.pullRequest.merged then (Except.ok (), [])
  else if pe.action != PullRequestActionSynchronize then (Except.ok (), [])
  else
    let org := pe.pullRequest.base.repo.owner.login
    let repo := pe.pullRequest.base.repo.name
    let number := pe.pullRequest.number
    match env.removeLabel with
    | Except.error RemoveLabelErr.labelNotFound =>
      (Except.ok (), [Call.removeLabel org repo number lgtmLabel])
    | Except.error (RemoveLabelErr.other msg) =>
      (Except.error ("failed removing lgtm label: " ++ msg),
        [Call.removeLabel org repo number lgtmLabel])
    | Except.ok _ =>
      (env.createComment,
        [Call.removeLabel org repo number lgtmLabel,
          Call.createComment org repo number removeLGTMLabelNoti])

/-! ### Trace analysis helpers -/

/-- The calls the stale-notification cleanup can issue. -/
def isCleanupCall : Call → Bool
  | Call.botName => true
  | Call.listIssueComments _ _ _ => true
  | Call.deleteComment _ _ _ => true
  | _ => false

/-- The calls label reconciliation (lines 152-189) can issue. -/
def isReconcileCall : Call → Bool
  | Call.getIssueLabels _ _ _ => true
  | Call.addLabel _ _ _ _ => true
  | Call.removeLabel _ _ _ _ => true
  | c => isCleanupCall c

/-! ### Concrete fixtures used by the witnesses -/

def sampleRepo : Repo := ⟨⟨"org"⟩, "repo"⟩

def envAllOk : Env where
  createComment := Except.ok ()
  assignIssue := Except.ok ()
  isCollaborator := Except.ok true
  getIssueLabels := Except.ok []
  addLabel := Except.ok ()
  removeLabel := Except.ok ()
  botName := Except.ok "k8s-ci-robot"
  listIssueComments := Except.ok []
  getPullRequest := Except.ok ⟨false, 5, ⟨"master", ⟨⟨"org"⟩, "repo"⟩⟩⟩
  loadRepoOwners := Except.ok ⟨fun _ => ["carol"], fun _ => ["dave"]⟩
  getPullRequestChanges := Except.ok [⟨"a.go"⟩]

def envLabeled : Env :=
  { envAllOk with getIssueLabels := Except.ok [⟨"lgtm"⟩] }

def envFetchFails : Env :=
  { envAllOk with getIssueLabels := Except.error "boom" }

def mkEvent (userLogin authorLogin : String) (assigneeLogins : List String)
    (body : String) : GenericCommentEvent where
  isPR := true
  issueState := "open"
  action := "created"
  body := body
  htmlURL := "https://example.com/pr/5"
  user := ⟨userLogin⟩
  issueAuthor := ⟨authorLogin⟩
  assignees := assigneeLogins.map User.mk
  repo := sampleRepo
  number := 5

def cfgNone : Configuration := ⟨[]⟩

def cfgSkipOrg : Configuration := ⟨["org"]⟩

def prenvOk : PREnv := ⟨Except.ok (), Except.ok ()⟩

def prenvNotFound : PREnv := ⟨Except.error RemoveLabelErr.labelNotFound, Except.ok ()⟩

def mkPREvent (merged : Bool) (action : String) : PullRequestEvent :=
  ⟨action, ⟨merged, 7, ⟨"master", sampleRepo⟩⟩⟩

lemma isReconcileCall_of_isCleanupCall {c : Call} (h : isCleanupCall c = true) :
    isReconcileCall c = true := by
  cases c <;> simp_all [isCleanupCall, isReconcileCall]

lemma mem_cleanupCalls {env : Env} {org repo : String} {number : Int} {c : Call}
    (hc : c ∈ cleanupCalls env org repo number) : isCleanupCall c = true := by
  simp only [cleanupCalls] at hc
  rcases List.mem_append.mp hc with h | h
  · rcases List.mem_cons.mp h with h | h
    · subst h; rfl
    · rcases List.mem_cons.mp h with h | h
      · subst h; rfl
      · exact absurd h (List.not_mem_nil c)
  · rcases List.mem_map.mp h with ⟨comment, _, h⟩
    subst h; rfl

lemma not_mem_cleanupCalls (env : Env) (org repo : String) (number : Int)
    (c : Call) (h : isCleanupCall c = false) :
    c ∉ cleanupCalls env org repo number := by
  intro hc
  simp [mem_cleanupCalls hc] at h

lemma mem_reconcile {env : Env} {org repo : String} {number : Int}
    {wantLGTM : Bool} {c : Call}
    (hc : c ∈ (reconcile env org repo number wantLGTM).2) :
    isReconcileCall c = true := by
  simp only [reconcile] at hc
  split_ifs at hc
  · simp only [List.mem_cons, List.not_mem_nil, or_false] at hc
    rcases hc with h | h <;> (subst h; rfl)
  · rcases henv : env.addLabel with err | u <;> rw [henv] at hc
    · simp only [List.mem_cons, List.not_mem_nil, or_false] at hc
      rcases hc with h | h <;> (subst h; rfl)
    · simp only [List.cons_append, List.nil_append, List.mem_cons] at hc
      rcases hc with h | h | h
      · subst h; rfl
      · subst h; rfl
      · exact isReconcileCall_of_isCleanupCall (mem_cleanupCalls h)
  · simp only [List.mem_cons, List.not_mem_nil, or_false] at hc
    subst hc; rfl

lemma not_mem_reconcile (env : Env) (org repo : String) (number : Int)
    (wantLGTM : Bool) (c : Call) (h : isReconcileCall c = false) :
    c ∉ (reconcile env org repo number wantLGTM).2 := by
  intro hc
  simp [mem_reconcile hc] at h

lemma reconcile_addLabel_iff (env : Env) (org repo : String) (number : Int)
    (wantLGTM : Bool) (o r : String) (n : Int) (l : String) :
    Call.addLabel o r n l ∈ (reconcile env org repo number wantLGTM).2 ↔
      o = org ∧ r = repo ∧ n = number ∧ l = lgtmLabel ∧
        observedHasLGTM env = false ∧ wantLGTM = true := by
  cases hH : observedHasLGTM env <;> cases wantLGTM <;>
    rcases henv : env.addLabel with err | u <;>
      simp [reconcile, hH, henv,
        not_mem_cleanupCalls env org repo number (Call.addLabel o r n l) rfl]

lemma reconcile_removeLabel_iff (env : Env) (org repo : String) (number : Int)
    (wantLGTM : Bool) (o r : String) (n : Int) (l : String) :
    Call.removeLabel o r n l ∈ (reconcile env org repo number wantLGTM).2 ↔
      o = org ∧ r = repo ∧ n = number ∧ l = lgtmLabel ∧
        observedHasLGTM env = true ∧ wantLGTM = false := by
  cases hH : observedHasLGTM env <;> cases wantLGTM <;>
    rcases henv : env.addLabel with err | u <;>
      simp [reconcile, hH, henv,
        not_mem_cleanupCalls env org repo number (Call.removeLabel o r n l) rfl]

lemma reconcile_noop (env : Env) (org repo : String) (number : Int)
    (wantLGTM : Bool) (h : observedHasLGTM env = wantLGTM) :
    reconcile env org repo number wantLGTM =
      (Except.ok (), [Call.getIssueLabels org repo number]) := by
  cases hH : observedHasLGTM env <;> cases wantLGTM <;>
    simp_all [reconcile]

lemma reconcile_not_both (env : Env) (org repo : String) (number : Int)
    (wantLGTM : Bool) (o1 r1 : String) (n1 : Int) (l1 : String)
    (o2 r2 : String) (n2 : Int) (l2 : String)
    (hadd : Call.addLabel o1 r1 n1 l1 ∈ (reconcile env org repo number wantLGTM).2)
    (hrem : Call.removeLabel o2 r2 n2 l2 ∈ (reconcile env org repo number wantLGTM).2) :
    False := by
  have h1 := (reconcile_addLabel_iff env org repo number wantLGTM o1 r1 n1 l1).mp hadd
  have h2 := (reconcile_removeLabel_iff env org repo number wantLGTM o2 r2 n2 l2).mp hrem
  rw [h1.2.2.2.2.1] at h2
  exact Bool.noConfusion h2.2.2.2.2.1

lemma mem_assignBranch {env : Env} {org repo : String} {number : Int}
    {commentAuthor body htmlURL : String} {wantLGTM : Bool} {c : Call}
    (hc : c ∈ (assignBranch env org repo number commentAuthor body htmlURL wantLGTM).2) :
    c = Call.assignIssue org repo number [commentAuthor] ∨
    c = Call.isCollaborator org repo commentAuthor ∨
    (∃ b, c = Call.createComment org repo number b) ∨
    c ∈ (reconcile env org repo number wantLGTM).2 := by
  unfold assignBranch at hc
  split at hc
  · rcases List.mem_cons.mp hc with h | h
    · exact Or.inl h
    · exact Or.inr (Or.inr (Or.inr h))
  · rcases List.mem_cons.mp hc with h | h
    · exact Or.inl h
    · rcases List.mem_cons.mp h with h | h
      · exact Or.inr (Or.inl h)
      · rcases List.mem_cons.mp h with h | h
        · exact Or.inr (Or.inr (Or.inl ⟨_, h⟩))
        · exact absurd h (List.not_mem_nil c)

lemma mem_ownersBranch {env : Env} {org repo : String} {number : Int}
    {commentAuthor body htmlURL : String} {wantLGTM : Bool} {c : Call}
    (hc : c ∈ (ownersBranch env org repo number commentAuthor body htmlURL wantLGTM).2) :
    c = Call.getPullRequest org repo number ∨
    (∃ ref, c = Call.loadRepoOwners org repo ref) ∨
    c = Call.getPullRequestChanges org repo number ∨
    (∃ b, c = Call.createComment org repo number b) ∨
    c ∈ (reconcile env org repo number wantLGTM).2 := by
  unfold ownersBranch at hc
  split at hc
  · rcases List.mem_cons.mp hc with h | h
    · exact Or.inl h
    · exact absurd h (List.not_mem_nil c)
  · split at hc
    · rcases List.mem_cons.mp hc with h | h
      · exact Or.inl h
      · rcases List.mem_cons.mp h with h | h
        · exact Or.inr (Or.inl ⟨_, h⟩)
        · exact absurd h (List.not_mem_nil c)
    · split at hc
      · rcases List.mem_cons.mp hc with h | h
        · exact Or.inl h
        · rcases List.mem_cons.mp h with h | h
          · exact Or.inr (Or.inl ⟨_, h⟩)
          · rcases List.mem_cons.mp h with h | h
            · exact Or.inr (Or.inr (Or.inl h))
            · exact absurd h (List.not_mem_nil c)
      · split at hc
        · rcases List.mem_append.mp hc with h | h
          · rcases List.mem_cons.mp h with h | h
            · exact Or.inl h
            · rcases List.mem_cons.mp h with h | h
              · exact Or.inr (Or.inl ⟨_, h⟩)
              · rcases List.mem_cons.mp h with h | h
                · exact Or.inr (Or.inr (Or.inl h))
                · exact absurd h (List.not_mem_nil c)
          · rcases List.mem_cons.mp h with h | h
            · exact Or.inr (Or.inr (Or.inr (Or.inl ⟨_, h⟩)))
            · exact absurd h (List.not_mem_nil c)
        · rcases List.mem_append.mp hc with h | h
          · rcases List.mem_cons.mp h with h | h
            · exact Or.inl h
            · rcases List.mem_cons.mp h with h | h
              · exact Or.inr (Or.inl ⟨_, h⟩)
              · rcases List.mem_cons.mp h with h | h
                · exact Or.inr (Or.inr (Or.inl h))
                · exact absurd h (List.not_mem_nil c)
          · exact Or.inr (Or.inr (Or.inr (Or.inr h)))

lemma addLabel_mem_assignBranch {env : Env} {org repo : String} {number : Int}
    {commentAuthor body htmlURL : String} {wantLGTM : Bool}
    {o r : String} {n : Int} {l : String}
    (hc : Call.addLabel o r n l ∈
      (assignBranch env org repo number commentAuthor body htmlURL wantLGTM).2) :
    Call.addLabel o r n l ∈ (reconcile env org repo number wantLGTM).2 := by
  rcases mem_assignBranch hc with h | h | ⟨b, h⟩ | h
  · exact absurd h (by simp)
  · exact absurd h (by simp)
  · exact absurd h (by simp)
  · exact h

lemma removeLabel_mem_assignBranch {env : Env} {org repo : String} {number : Int}
    {commentAuthor body htmlURL : String} {wantLGTM : Bool}
    {o r : String} {n : Int} {l : String}
    (hc : Call.removeLabel o r n l ∈
      (assignBranch env org repo number commentAuthor body htmlURL wantLGTM).2) :
    Call.removeLabel o r n l ∈ (reconcile env org repo number wantLGTM).2 := by
  rcases mem_assignBranch hc with h | h | ⟨b, h⟩ | h
  · exact absurd h (by simp)
  · exact absurd h (by simp)
  · exact absurd h (by simp)
  · exact h

lemma addLabel_mem_ownersBranch {env : Env} {org repo : String} {number : Int}
    {commentAuthor body htmlURL : String} {wantLGTM : Bool}
    {o r : String} {n : Int} {l : String}
    (hc : Call.addLabel o r n l ∈
      (ownersBranch env org repo number commentAuthor body htmlURL wantLGTM).2) :
    Call.addLabel o r n l ∈ (reconcile env org repo number wantLGTM).2 := by
  rcases mem_ownersBranch hc with h | ⟨ref, h⟩ | h | ⟨b, h⟩ | h
  · exact absurd h (by simp)
  · exact absurd h (by simp)
  · exact absurd h (by simp)
  · exact absurd h (by simp)
  · exact h

lemma removeLabel_mem_ownersBranch {env : Env} {org repo : String} {number : Int}
    {commentAuthor body htmlURL : String} {wantLGTM : Bool}
    {o r : String} {n : Int} {l : String}
    (hc : Call.removeLabel o r n l ∈
      (ownersBranch env org repo number commentAuthor body htmlURL wantLGTM).2) :
    Call.removeLabel o r n l ∈ (reconcile env org repo number wantLGTM).2 := by
  rcases mem_ownersBranch hc with h | ⟨ref, h⟩ | h | ⟨b, h⟩ | h
  · exact absurd h (by simp)
  · exact absurd h (by simp)
  · exact absurd h (by simp)
  · exact absurd h (by simp)
  · exact h

/-- Exhaustive case analysis of the comment handler: its result is the empty
no-op, the self-approval rejection, the assignment branch (with its
entry conditions recorded), the owners branch, or bare reconciliation. -/
lemma handle_cases (env : Env) (config : Configuration) (e : GenericCommentEvent) :
    handle env config e = (Except.ok (), []) ∨
    (∃ b, handle env config e =
      (env.createComment,
        [Call.createComment e.repo.owner.login e.repo.name e.number b])) ∨
    ((e.assignees.any fun assignee => assignee.login == e.user.login) = false ∧
      (e.user.login == e.issueAuthor.login) = false ∧
      skipCollaborators config e.repo.owner.login e.repo.name = false ∧
      ∃ w, handle env config e =
        assignBranch env e.repo.owner.login e.repo.name e.number e.user.login
          e.body e.htmlURL w) ∨
    ((e.user.login == e.issueAuthor.login) = false ∧
      skipCollaborators config e.repo.owner.login e.repo.name = true ∧
      ∃ w, handle env config e =
        ownersBranch env e.repo.owner.login e.repo.name e.number e.user.login
          e.body e.htmlURL w) ∨
    (∃ w, handle env config e =
      reconcile env e.repo.owner.login e.repo.name e.number w) := by
  by_cases hpre : (!e.isPR || e.issueState != "open" ||
      e.action != GenericCommentActionCreated) = true
  · exact Or.inl (by simp [handle, hpre])
  have hpre' : (!e.isPR || e.issueState != "open" ||
      e.action != GenericCommentActionCreated) = false := by
    simpa using hpre
  by_cases hauth : (e.user.login == e.issueAuthor.login) = true
  · by_cases hre : lgtmReMatch e.body = true
    · exact Or.inr (Or.inl
        ⟨FormatResponseRaw e.body e.htmlURL e.user.login "you cannot LGTM your own PR.",
          by simp [handle, hpre', hre, hauth]⟩)
    have hre' : lgtmReMatch e.body = false := by simpa using hre
    by_cases hcan : lgtmCancelReMatch e.body = true
    · exact Or.inr (Or.inr (Or.inr (Or.inr
        ⟨false, by simp [handle, hpre', hre', hcan, hauth]⟩)))
    · have hcan' : lgtmCancelReMatch e.body = false := by simpa using hcan
      exact Or.inl (by simp [handle, hpre', hre', hcan'])
  have hauth' : (e.user.login == e.issueAuthor.login) = false := by simpa using hauth
  by_cases hcmd : lgtmReMatch e.body = true ∨ lgtmCancelReMatch e.body = true
  swap
  · push_neg at hcmd
    have hre' : lgtmReMatch e.body = false := by simpa using hcmd.1
    have hcan' : lgtmCancelReMatch e.body = false := by simpa using hcmd.2
    exact Or.inl (by simp [handle, hpre', hre', hcan'])
  · -- a command is present and the commenter is not the author
    by_cases hassign : (e.assignees.any fun assignee =>
        assignee.login == e.user.login) = true
    all_goals by_cases hskip :
      skipCollaborators config e.repo.owner.login e.repo.name = true
    -- assignee, skip: owners branch
    · refine Or.inr (Or.inr (Or.inr (Or.inl ⟨hauth', hskip, ?_⟩)))
      rcases hcmd with hre | hcan
      · exact ⟨true, by simp [handle, hpre', hre, hauth', hassign, hskip]⟩
      · by_cases hre : lgtmReMatch e.body = true
        · exact ⟨true, by simp [handle, hpre', hre, hauth', hassign, hskip]⟩
        · have hre' : lgtmReMatch e.body = false := by simpa using hre
          exact ⟨false, by simp [handle, hpre', hre', hcan, hauth', hassign, hskip]⟩
    -- assignee, no skip: straight to reconciliation
    · have hskip' : skipCollaborators config e.repo.owner.login e.repo.name = false := by
        simpa using hskip
      refine Or.inr (Or.inr (Or.inr (Or.inr ?_)))
      rcases hcmd with hre | hcan
      · exact ⟨true, by simp [handle, hpre', hre, hauth', hassign, hskip']⟩
      · by_cases hre : lgtmReMatch e.body = true
        · exact ⟨true, by simp [handle, hpre', hre, hauth', hassign, hskip']⟩
        · have hre' : lgtmReMatch e.body = false := by simpa using hre
          exact ⟨false, by simp [handle, hpre', hre', hcan, hauth', hassign, hskip']⟩
    -- no assignee, skip: owners branch
    · have hassign' : (e.assignees.any fun assignee =>
          assignee.login == e.user.login) = false := by simpa using hassign
      refine Or.inr (Or.inr (Or.inr (Or.inl ⟨hauth', hskip, ?_⟩)))
      rcases hcmd with hre | hcan
      · exact ⟨true, by simp [handle, hpre', hre, hauth', hassign', hskip]⟩
      · by_cases hre : lgtmReMatch e.body = true
        · exact ⟨true, by simp [handle, hpre', hre, hauth', hassign', hskip]⟩
        · have hre' : lgtmReMatch e.body = false := by simpa using hre
          exact ⟨false, by simp [handle, hpre', hre', hcan, hauth', hassign', hskip]⟩
    -- no assignee, no skip: assignment branch
    · have hassign' : (e.assignees.any fun assignee =>
          assignee.login == e.user.login) = false := by simpa using hassign
      have hskip' : skipCollaborators config e.repo.owner.login e.repo.name = false := by
        simpa using hskip
      refine Or.inr (Or.inr (Or.inl ⟨hassign', hauth', hskip', ?_⟩))
      rcases hcmd with hre | hcan
      · exact ⟨true, by simp [handle, hpre', hre, hauth', hassign', hskip']⟩
      · by_cases hre : lgtmReMatch e.body = true
        · exact ⟨true, by simp [handle, hpre', hre, hauth', hassign', hskip']⟩
        · have hre' : lgtmReMatch e.body = false := by simpa using hre
          exact ⟨false, by simp [handle, hpre', hre', hcan, hauth', hassign', hskip']⟩

/-- No single invocation of the comment handler ever issues both an add-label
call and a remove-label call. -/
lemma handle_not_both {env : Env} {config : Configuration}
    {e : GenericCommentEvent} {o1 r1 : String} {n1 : Int} {l1 : String}
    {o2 r2 : String} {n2 : Int} {l2 : String}
    (hadd : Call.addLabel o1 r1 n1 l1 ∈ (handle env config e).2)
    (hrem : Call.removeLabel o2 r2 n2 l2 ∈ (handle env config e).2) :
    False := by
  rcases handle_cases env config e with h | ⟨b, h⟩ | ⟨_, _, _, w, h⟩ | ⟨_, _, w, h⟩ | ⟨w, h⟩
  · rw [h] at hadd
    exact absurd hadd (List.not_mem_nil _)
  · rw [h] at hadd
    rcases List.mem_cons.mp hadd with h' | h'
    · simp at h'
    · exact absurd h' (List.not_mem_nil _)
  · rw [h] at hadd hrem
    exact reconcile_not_both _ _ _ _ _ _ _ _ _ _ _ _ _
      (addLabel_mem_assignBranch hadd) (removeLabel_mem_assignBranch hrem)
  · rw [h] at hadd hrem
    exact reconcile_not_both _ _ _ _ _ _ _ _ _ _ _ _ _
      (addLabel_mem_ownersBranch hadd) (removeLabel_mem_ownersBranch hrem)
  · rw [h] at hadd hrem
    exact reconcile_not_both _ _ _ _ _ _ _ _ _ _ _ _ _ hadd hrem

/-- An assignment call can only come from the assignment-based authorization
branch: the commenter is not the author, not an (exact-match) assignee, and
the repository is not in the skip-collaborators list. -/
lemma assignIssue_mem_handle {env : Env} {config : Configuration}
    {e : GenericCommentEvent} {o r : String} {n : Int} {ls : List String}
    (hc : Call.assignIssue o r n ls ∈ (handle env config e).2) :
    (e.assignees.any fun assignee => assignee.login == e.user.login) = false ∧
    (e.user.login == e.issueAuthor.login) = false ∧
    skipCollaborators config e.repo.owner.login e.repo.name = false := by
  rcases handle_cases env config e with h | ⟨b, h⟩ | ⟨h1, h2, h3, w, h⟩ | ⟨_, _, w, h⟩ | ⟨w, h⟩
  · rw [h] at hc
    exact absurd hc (List.not_mem_nil _)
  · rw [h] at hc
    rcases List.mem_cons.mp hc with h' | h'
    · simp at h'
    · exact absurd h' (List.not_mem_nil _)
  · exact ⟨h1, h2, h3⟩
  · rw [h] at hc
    rcases mem_ownersBranch hc with h' | ⟨ref, h'⟩ | h' | ⟨b, h'⟩ | h'
    · simp at h'
    · simp at h'
    · simp at h'
    · simp at h'
    · exact absurd (mem_reconcile h')
        (by intro hx; simp [isReconcileCall, isCleanupCall] at hx)
  · rw [h] at hc
    exact absurd (mem_reconcile hc)
      (by intro hx; simp [isReconcileCall, isCleanupCall] at hx)

/-! ### Classification characterizations -/

lemma classify_eq_wantApprove {body : String} :
    classify body = Command.wantApprove ↔ lgtmReMatch body = true := by
  unfold classify
  split_ifs with h1 h2 <;> simp [h1]

lemma classify_eq_wantCancel {body : String} :
    classify body = Command.wantCancel ↔
      lgtmReMatch body = false ∧ lgtmCancelReMatch body = true := by
  unfold classify
  split_ifs with h1 h2 <;> simp [h1, *]

lemma classify_eq_notACommand {body : String} :
    classify body = Command.notACommand ↔
      lgtmReMatch body = false ∧ lgtmCancelReMatch body = false := by
  unfold classify
  split_ifs with h1 h2 <;> simp [h1, *]

/-- C1: counterexample.  The two-line body `/lgtm` + newline + `/lgtm cancel`
contains a line that is exactly `/lgtm cancel`, so the claim requires
want-cancel; but the handler tests the approve regex first and classifies the
body as want-approve. -/
theorem C1_counterexample :
    lgtmCancelReMatch "/lgtm\n/lgtm cancel" = true ∧
      classify "/lgtm\n/lgtm cancel" = Command.wantApprove := by
  decide

/-- C1 (amended): classification is want-approve for every body containing a
line that is exactly `/lgtm` or `/lgtm no-issue` (case-insensitively, after
trimming trailing whitespace), regardless of any cancel line; want-cancel for
every body containing a line exactly `/lgtm cancel` and no approve line; and
not-a-command otherwise, in which case the handler returns success with no
calls. -/
theorem C1_classification (body : String) :
    (lgtmReMatch body = true → classify body = Command.wantApprove) ∧
    (lgtmReMatch body = false → lgtmCancelReMatch body = true →
      classify body = Command.wantCancel) ∧
    (lgtmReMatch body = false → lgtmCancelReMatch body = false →
      classify body = Command.notACommand) ∧
    (∀ (env : Env) (config : Configuration) (e : GenericCommentEvent),
      e.body = body → lgtmReMatch body = false → lgtmCancelReMatch body = false →
      handle env config e = (Except.ok (), [])) := by
  refine ⟨fun h => ?_, fun h1 h2 => ?_, fun h1 h2 => ?_,
    fun env config e he h1 h2 => ?_⟩
  · simp [classify, h]
  · simp [classify, h1, h2]
  · simp [classify, h1, h2]
  · subst he
    unfold handle
    split
    · rfl
    · simp [h1, h2]

/-- C1: witness for the amended classification at concrete bodies. -/
theorem C1_classification_witness :
    classify "/LGTM no-issue" = Command.wantApprove ∧
      classify "/lgtm CANCEL\t" = Command.wantCancel ∧
      classify "lgtm please" = Command.notACommand :=
  ⟨(C1_classification "/LGTM no-issue").1 (by decide),
    (C1_classification "/lgtm CANCEL\t").2.1 (by decide) (by decide),
    (C1_classification "lgtm please").2.2.1 (by decide) (by decide)⟩

/-- C2: counterexample.  A body can be recognized by both patterns: the
two-line body `/lgtm` + newline + `/lgtm cancel` matches both `lgtmRe` and
`lgtmCancelRe`. -/
theorem C2_counterexample :
    lgtmReMatch "/lgtm\n/lgtm cancel" = true ∧
      lgtmCancelReMatch "/lgtm\n/lgtm cancel" = true := by
  decide

/-- C2 (amended): mutual exclusion holds per line, not per body — no single
line matches both the approve pattern and the cancel pattern; and for a
multi-line body matched by both regexes the if/else of the handler still assigns
only one command (want-approve, tested first), so each comment is classified
as at most one command. -/
theorem C2_exclusivity :
    (∀ line : List Char, lineLgtm line = true → lineLgtmCancel line = false) ∧
    (∀ body : String, lgtmReMatch body = true → lgtmCancelReMatch body = true →
      classify body = Command.wantApprove) := by
  constructor
  · intro line h
    simp only [lineLgtm, Bool.or_eq_true, beq_iff_eq] at h
    rcases h with h | h <;> (unfold lineLgtmCancel; rw [h]; decide)
  · intro body h1 h2
    simp [classify, h1]

/-- C2: witness for the amended exclusivity at concrete inputs. -/
theorem C2_exclusivity_witness :
    lineLgtmCancel "/lgtm".toList = false ∧
      classify "/lgtm\n/lgtm CANCEL" = Command.wantApprove :=
  ⟨C2_exclusivity.1 "/lgtm".toList (by decide),
    C2_exclusivity.2 "/lgtm\n/lgtm CANCEL" (by decide) (by decide)⟩

/-- C3: self-approval guard.  On an open-PR created-comment event whose actor
is the pull-request author and whose command is want-approve, the handler
issues exactly one call — the rejection comment — and returns its result: no
label mutation, no assignment, no IsCollaborator call, no owners load, no
label fetch. -/
theorem C3_self_approval_guard (env : Env) (config : Configuration)
    (e : GenericCommentEvent)
    (hpr : e.isPR = true) (hstate : e.issueState = "open")
    (hact : e.action = GenericCommentActionCreated)
    (hcmd : classify e.body = Command.wantApprove)
    (hauthor : e.user.login = e.issueAuthor.login) :
    handle env config e =
      (env.createComment,
        [Call.createComment e.repo.owner.login e.repo.name e.number
          (FormatResponseRaw e.body e.htmlURL e.user.login
            "you cannot LGTM your own PR.")]) := by
  have h1 : lgtmReMatch e.body = true := classify_eq_wantApprove.mp hcmd
  unfold handle
  simp [hpr, hstate, hact, GenericCommentActionCreated, h1, hauthor]

/-- C3: witness — the author commenting `/lgtm` on their own open pull request
gets exactly the rejection comment. -/
theorem C3_self_approval_guard_witness :
    handle envAllOk cfgNone (mkEvent "alice" "alice" [] "/lgtm") =
      (Except.ok (),
        [Call.createComment "org" "repo" 5
          (FormatResponseRaw "/lgtm" "https://example.com/pr/5" "alice"
            "you cannot LGTM your own PR.")]) :=
  C3_self_approval_guard envAllOk cfgNone (mkEvent "alice" "alice" [] "/lgtm")
    rfl rfl rfl (by decide) rfl

/-- C4: author cancel.  On an open-PR created-comment event whose actor is the
pull-request author and whose command is want-cancel, authorization passes
unconditionally: whatever the assignee set and the skip-collaborators
configuration, the handler proceeds directly to label reconciliation, with no
assignment attempt, no IsCollaborator call, and no ownership-file call. -/
theorem C4_author_cancel (env : Env) (config : Configuration)
    (e : GenericCommentEvent)
    (hpr : e.isPR = true) (hstate : e.issueState = "open")
    (hact : e.action = GenericCommentActionCreated)
    (hcmd : classify e.body = Command.wantCancel)
    (hauthor : e.user.login = e.issueAuthor.login) :
    handle env config e =
      reconcile env e.repo.owner.login e.repo.name e.number false ∧
    (∀ (o r : String) (n : Int) (logins : List String),
      Call.assignIssue o r n logins ∉ (handle env config e).2) ∧
    (∀ o r l : String, Call.isCollaborator o r l ∉ (handle env config e).2) ∧
    (∀ o r ref : String, Call.loadRepoOwners o r ref ∉ (handle env config e).2) ∧
    (∀ (o r : String) (n : Int), Call.getPullRequest o r n ∉ (handle env config e).2) ∧
    (∀ (o r : String) (n : Int),
      Call.getPullRequestChanges o r n ∉ (handle env config e).2) := by
  obtain ⟨h1, h2⟩ := classify_eq_wantCancel.mp hcmd
  have heq : handle env config e =
      reconcile env e.repo.owner.login e.repo.name e.number false := by
    unfold handle
    simp [hpr, hstate, hact, GenericCommentActionCreated, h1, h2, hauthor]
  refine ⟨heq, ?_, ?_, ?_, ?_, ?_⟩
  · intro o r n logins; rw [heq]; exact not_mem_reconcile _ _ _ _ _ _ rfl
  · intro o r l; rw [heq]; exact not_mem_reconcile _ _ _ _ _ _ rfl
  · intro o r ref; rw [heq]; exact not_mem_reconcile _ _ _ _ _ _ rfl
  · intro o r n; rw [heq]; exact not_mem_reconcile _ _ _ _ _ _ rfl
  · intro o r n; rw [heq]; exact not_mem_reconcile _ _ _ _ _ _ rfl

/-- C4: witness — the author cancelling on a labeled pull request, with an
assignee set not containing them and the repo in the skip-collaborators list,
goes straight to reconciliation (label fetch then removal). -/
theorem C4_author_cancel_witness :
    handle envLabeled cfgSkipOrg (mkEvent "alice" "alice" ["bob"] "/lgtm cancel") =
      reconcile envLabeled "org" "repo" 5 false ∧
    reconcile envLabeled "org" "repo" 5 false =
      (Except.ok (),
        [Call.getIssueLabels "org" "repo" 5,
          Call.removeLabel "org" "repo" 5 lgtmLabel]) :=
  ⟨(C4_author_cancel envLabeled cfgSkipOrg
      (mkEvent "alice" "alice" ["bob"] "/lgtm cancel")
      rfl rfl rfl (by decide) rfl).1,
    rfl⟩

/-- C5: counterexample.  The assignee-membership test of line 106 compares
logins byte-for-byte, not case-normalized: a commenter `Alice` whose lowercase
form equals the sole assignee `alice` is not treated as an assignee, so the
handler issues an assignment call for them. -/
theorem C5_counterexample :
    NormLogin "Alice" = NormLogin "alice" ∧
      Call.assignIssue "org" "repo" 5 ["Alice"] ∈
        (handle envAllOk cfgNone (mkEvent "Alice" "bob" ["alice"] "/lgtm")).2 := by
  exact ⟨by decide, by decide⟩

/-- C5 (amended): only the ownership-based membership test normalizes case —
the login of the commenting actor is lowercased before the lookup in the
reviewer/approver union — while the assignee-membership test compares logins
exactly: the assignment call is made iff no assignee login is
byte-for-byte equal to that of the actor. -/
theorem C5_identity_comparisons (env : Env) (config : Configuration)
    (e : GenericCommentEvent) (pr : PullRequest) (ro : RepoOwner)
    (changes : List PullRequestChange)
    (hpr : e.isPR = true) (hstate : e.issueState = "open")
    (hact : e.action = GenericCommentActionCreated)
    (hcmd : classify e.body = Command.wantApprove)
    (hauthor : (e.user.login == e.issueAuthor.login) = false)
    (hgp : env.getPullRequest = Except.ok pr)
    (hro : env.loadRepoOwners = Except.ok ro)
    (hch : env.getPullRequestChanges = Except.ok changes) :
    (skipCollaborators config e.repo.owner.login e.repo.name = false →
      (Call.assignIssue e.repo.owner.login e.repo.name e.number [e.user.login] ∈
          (handle env config e).2 ↔
        (e.assignees.any fun assignee => assignee.login == e.user.login) = false)) ∧
    (skipCollaborators config e.repo.owner.login e.repo.name = true →
      (loadReviewers ro (changes.map fun change => change.filename)).contains
          (NormLogin e.user.login) = true →
      handle env config e =
        ((reconcile env e.repo.owner.login e.repo.name e.number true).1,
          [Call.getPullRequest e.repo.owner.login e.repo.name e.number,
            Call.loadRepoOwners e.repo.owner.login e.repo.name pr.base.ref,
            Call.getPullRequestChanges e.repo.owner.login e.repo.name e.number] ++
            (reconcile env e.repo.owner.login e.repo.name e.number true).2)) := by
  have hre : lgtmReMatch e.body = true := classify_eq_wantApprove.mp hcmd
  constructor
  · intro hskip
    constructor
    · intro hmem
      exact (assignIssue_mem_handle hmem).1
    · intro hassign
      have heq : handle env config e =
          assignBranch env e.repo.owner.login e.repo.name e.number e.user.login
            e.body e.htmlURL true := by
        simp [handle, hpr, hstate, hact, GenericCommentActionCreated, hre,
          hauthor, hassign, hskip]
      rw [heq]
      rcases henv : env.assignIssue with err | u <;> simp [assignBranch, henv]
  · intro hskip hcont
    have hcond : (!(loadReviewers ro (changes.map fun change =>
        change.filename)).contains (NormLogin e.user.login)) = false := by
      rw [hcont]; rfl
    simp [handle, ownersBranch, hpr, hstate, hact, GenericCommentActionCreated,
      hre, hauthor, hskip, hgp, hro, hch, hcond]
    intro hno
    simp at hcont
    exact absurd hcont hno

/-- C5: witness for the amended statement — a non-assignee commenter triggers
the assignment call, and on a skip-collaborators repo the commenter `Carol`
passes the ownership check because `NormLogin` lowercases them into the
approver set `["carol", "dave"]`. -/
theorem C5_identity_comparisons_witness :
    Call.assignIssue "org" "repo" 5 ["eve"] ∈
      (handle envAllOk cfgNone (mkEvent "eve" "bob" [] "/lgtm")).2 ∧
    handle envAllOk cfgSkipOrg (mkEvent "Carol" "bob" [] "/lgtm") =
      ((reconcile envAllOk "org" "repo" 5 true).1,
        [Call.getPullRequest "org" "repo" 5,
          Call.loadRepoOwners "org" "repo" "master",
          Call.getPullRequestChanges "org" "repo" 5] ++
          (reconcile envAllOk "org" "repo" 5 true).2) :=
  ⟨((C5_identity_comparisons envAllOk cfgNone (mkEvent "eve" "bob" [] "/lgtm")
        ⟨false, 5, ⟨"master", sampleRepo⟩⟩ ⟨fun _ => ["carol"], fun _ => ["dave"]⟩
        [⟨"a.go"⟩] rfl rfl rfl (by decide) rfl rfl rfl rfl).1 rfl).mpr rfl,
    (C5_identity_comparisons envAllOk cfgSkipOrg (mkEvent "Carol" "bob" [] "/lgtm")
        ⟨false, 5, ⟨"master", sampleRepo⟩⟩ ⟨fun _ => ["carol"], fun _ => ["dave"]⟩
        [⟨"a.go"⟩] rfl rfl rfl (by decide) rfl rfl rfl rfl).2 rfl (by decide)⟩

/-- C6: label reconciliation is idempotent and single-mutation — the add-label
call is issued iff the label was observed absent and the command wants it, the
remove-label call iff it was observed present and unwanted, a matching
observed state yields only the fetch call and success, and no handler
invocation ever issues both an add and a remove. -/
theorem C6_reconciliation (env : Env) (org repo : String) (number : Int)
    (wantLGTM : Bool) :
    (Call.addLabel org repo number lgtmLabel ∈
        (reconcile env org repo number wantLGTM).2 ↔
      observedHasLGTM env = false ∧ wantLGTM = true) ∧
    (Call.removeLabel org repo number lgtmLabel ∈
        (reconcile env org repo number wantLGTM).2 ↔
      observedHasLGTM env = true ∧ wantLGTM = false) ∧
    (observedHasLGTM env = wantLGTM →
      reconcile env org repo number wantLGTM =
        (Except.ok (), [Call.getIssueLabels org repo number])) ∧
    (∀ (config : Configuration) (e : GenericCommentEvent)
      (o1 r1 : String) (n1 : Int) (l1 : String)
      (o2 r2 : String) (n2 : Int) (l2 : String),
      Call.addLabel o1 r1 n1 l1 ∈ (handle env config e).2 →
      Call.removeLabel o2 r2 n2 l2 ∈ (handle env config e).2 → False) := by
  refine ⟨?_, ?_, reconcile_noop env org repo number wantLGTM, ?_⟩
  · simpa using reconcile_addLabel_iff env org repo number wantLGTM org repo number lgtmLabel
  · simpa using reconcile_removeLabel_iff env org repo number wantLGTM org repo number lgtmLabel
  · intro config e o1 r1 n1 l1 o2 r2 n2 l2 h1 h2
    exact handle_not_both h1 h2

/-- C6: witness — add fires on an unlabeled state wanting the label, remove
fires on a labeled state not wanting it, and a matching state is a no-op. -/
theorem C6_reconciliation_witness :
    Call.addLabel "org" "repo" 5 lgtmLabel ∈
      (reconcile envAllOk "org" "repo" 5 true).2 ∧
    Call.removeLabel "org" "repo" 5 lgtmLabel ∈
      (reconcile envLabeled "org" "repo" 5 false).2 ∧
    reconcile envLabeled "org" "repo" 5 true =
      (Except.ok (), [Call.getIssueLabels "org" "repo" 5]) :=
  ⟨(C6_reconciliation envAllOk "org" "repo" 5 true).1.mpr ⟨by decide, rfl⟩,
    (C6_reconciliation envLabeled "org" "repo" 5 false).2.1.mpr ⟨by decide, rfl⟩,
    (C6_reconciliation envLabeled "org" "repo" 5 true).2.2.1 (by decide)⟩

/-- C7: a failed label fetch does not abort reconciliation — the handler
proceeds as if no labels were found, so a want-approve command still issues
the add-label call even though the pull request may in truth be labeled. -/
theorem C7_fetch_failure (env : Env) (org repo : String) (number : Int)
    (msg : GoErr) (hfail : env.getIssueLabels = Except.error msg) :
    observedHasLGTM env = false ∧
    Call.addLabel org repo number lgtmLabel ∈
      (reconcile env org repo number true).2 := by
  have h : observedHasLGTM env = false := by
    simp [observedHasLGTM, fetchedLabels, hfail]
  exact ⟨h,
    (reconcile_addLabel_iff env org repo number true org repo number lgtmLabel).mpr
      ⟨rfl, rfl, rfl, rfl, h, rfl⟩⟩

/-- C7: witness — with a failing label fetch the add-label call is issued. -/
theorem C7_fetch_failure_witness :
    envFetchFails.getIssueLabels = Except.error "boom" ∧
    Call.addLabel "org" "repo" 5 lgtmLabel ∈
      (reconcile envFetchFails "org" "repo" 5 true).2 :=
  ⟨rfl, (C7_fetch_failure envFetchFails "org" "repo" 5 "boom" rfl).2⟩

/-- C8: the synchronize handler is a no-op for merged pull requests or
non-synchronize actions, and otherwise issues exactly one remove-label call:
LabelNotFound is swallowed with no comment, any other removal error is
propagated (wrapped) with no comment, and a successful removal is followed by
exactly one stale-notification comment. -/
theorem C8_synchronize (env : PREnv) (pe : PullRequestEvent) :
    (pe.pullRequest.merged = true → handlePullRequest env pe = (Except.ok (), [])) ∧
    (pe.action ≠ PullRequestActionSynchronize →
      handlePullRequest env pe = (Except.ok (), [])) ∧
    (pe.pullRequest.merged = false → pe.action = PullRequestActionSynchronize →
      ((handlePullRequest env pe).2.count
          (Call.removeLabel pe.pullRequest.base.repo.owner.login
            pe.pullRequest.base.repo.name pe.pullRequest.number lgtmLabel) = 1 ∧
        (env.removeLabel = Except.error RemoveLabelErr.labelNotFound →
          handlePullRequest env pe =
            (Except.ok (),
              [Call.removeLabel pe.pullRequest.base.repo.owner.login
                pe.pullRequest.base.repo.name pe.pullRequest.number lgtmLabel])) ∧
        (∀ msg, env.removeLabel = Except.error (RemoveLabelErr.other msg) →
          handlePullRequest env pe =
            (Except.error ("failed removing lgtm label: " ++ msg),
              [Call.removeLabel pe.pullRequest.base.repo.owner.login
                pe.pullRequest.base.repo.name pe.pullRequest.number lgtmLabel])) ∧
        (env.removeLabel = Except.ok () →
          handlePullRequest env pe =
            (env.createComment,
              [Call.removeLabel pe.pullRequest.base.repo.owner.login
                pe.pullRequest.base.repo.name pe.pullRequest.number lgtmLabel,
                Call.createComment pe.pullRequest.base.repo.owner.login
                  pe.pullRequest.base.repo.name pe.pullRequest.number
                  removeLGTMLabelNoti])))) := by
  refine ⟨fun hm => by simp [handlePullRequest, hm], fun ha => ?_, fun hm ha => ?_⟩
  · rcases hm : pe.pullRequest.merged <;> simp [handlePullRequest, hm, ha]
  · refine ⟨?_, fun h => by simp [handlePullRequest, hm, ha, h],
      fun msg h => by simp [handlePullRequest, hm, ha, h],
      fun h => by simp [handlePullRequest, hm, ha, h]⟩
    rcases henv : env.removeLabel with err | u
    · rcases err with _ | msg <;> simp [handlePullRequest, hm, ha, henv]
    · simp [handlePullRequest, hm, ha, henv]

/-- C8: witness — on an unmerged synchronize event, successful removal posts
the notification, LabelNotFound yields success with no comment, and a merged
pull request is a complete no-op. -/
theorem C8_synchronize_witness :
    handlePullRequest prenvOk (mkPREvent false "synchronize") =
      (Except.ok (),
        [Call.removeLabel "org" "repo" 7 lgtmLabel,
          Call.createComment "org" "repo" 7 removeLGTMLabelNoti]) ∧
    handlePullRequest prenvNotFound (mkPREvent false "synchronize") =
      (Except.ok (), [Call.removeLabel "org" "repo" 7 lgtmLabel]) ∧
    handlePullRequest prenvOk (mkPREvent true "synchronize") =
      (Except.ok (), []) :=
  ⟨((C8_synchronize prenvOk (mkPREvent false "synchronize")).2.2 rfl rfl).2.2.2 rfl,
    ((C8_synchronize prenvNotFound (mkPREvent false "synchronize")).2.2 rfl rfl).2.1 rfl,
    (C8_synchronize prenvOk (mkPREvent true "synchronize")).1 rfl⟩

lemma mem_loadReviewers (ro : RepoOwner) (filenames : List String) (x : String) :
    x ∈ loadReviewers ro filenames ↔
      ∃ f ∈ filenames, x ∈ ro.Approvers f ∨ x ∈ ro.Reviewers f := by
  suffices h : ∀ acc : List String,
      (x ∈ filenames.foldl (fun reviewers filename =>
        reviewers ++ ro.Approvers filename ++ ro.Reviewers filename) acc ↔
      x ∈ acc ∨ ∃ f ∈ filenames, x ∈ ro.Approvers f ∨ x ∈ ro.Reviewers f) by
    simpa [loadReviewers] using h []
  induction filenames with
  | nil => simp
  | cons f fs ih =>
    intro acc
    simp only [List.foldl_cons, ih, List.mem_append, List.mem_cons]
    constructor
    · rintro (((h | h) | h) | ⟨g, hg, h⟩)
      · exact Or.inl h
      · exact Or.inr ⟨f, by simp, Or.inl h⟩
      · exact Or.inr ⟨f, by simp, Or.inr h⟩
      · exact Or.inr ⟨g, by simp [hg], h⟩
    · rintro (h | ⟨g, hg, h⟩)
      · exact Or.inl (Or.inl (Or.inl h))
      · rcases hg with hg | hg
        · subst hg
          rcases h with h | h
          · exact Or.inl (Or.inl (Or.inr h))
          · exact Or.inl (Or.inr h)
        · exact Or.inr ⟨g, hg, h⟩

/-- C9: the set authorized by ownership-based authorization is exactly the
union over the changed files of the per-file approvers and reviewers, and a
non-author actor whose normalized login is outside that union on a
skip-collaborators repo gets exactly the denial comment — no label mutation
occurs. -/
theorem C9_ownership_union (ro : RepoOwner) (filenames : List String) (x : String)
    (env : Env) (config : Configuration) (e : GenericCommentEvent)
    (pr : PullRequest) (changes : List PullRequestChange)
    (hpr : e.isPR = true) (hstate : e.issueState = "open")
    (hact : e.action = GenericCommentActionCreated)
    (hcmd : classify e.body = Command.wantApprove)
    (hauthor : (e.user.login == e.issueAuthor.login) = false)
    (hskip : skipCollaborators config e.repo.owner.login e.repo.name = true)
    (hgp : env.getPullRequest = Except.ok pr)
    (hro : env.loadRepoOwners = Except.ok ro)
    (hch : env.getPullRequestChanges = Except.ok changes)
    (hdeny : (loadReviewers ro (changes.map fun change =>
      change.filename)).contains (NormLogin e.user.login) = false) :
    (x ∈ loadReviewers ro filenames ↔
      ∃ f ∈ filenames, x ∈ ro.Approvers f ∨ x ∈ ro.Reviewers f) ∧
    handle env config e =
      (env.createComment,
        [Call.getPullRequest e.repo.owner.login e.repo.name e.number,
          Call.loadRepoOwners e.repo.owner.login e.repo.name pr.base.ref,
          Call.getPullRequestChanges e.repo.owner.login e.repo.name e.number,
          Call.createComment e.repo.owner.login e.repo.name e.number
            (FormatResponseRaw e.body e.htmlURL e.user.login
              "adding LGTM is restricted to approvers and reviewers in OWNERS files.")]) ∧
    (∀ (o r : String) (n : Int) (l : String),
      Call.addLabel o r n l ∉ (handle env config e).2 ∧
      Call.removeLabel o r n l ∉ (handle env config e).2) := by
  have hre : lgtmReMatch e.body = true := classify_eq_wantApprove.mp hcmd
  have hcond : (!(loadReviewers ro (changes.map fun change =>
      change.filename)).contains (NormLogin e.user.login)) = true := by
    rw [hdeny]; rfl
  have heq : handle env config e =
      (env.createComment,
        [Call.getPullRequest e.repo.owner.login e.repo.name e.number,
          Call.loadRepoOwners e.repo.owner.login e.repo.name pr.base.ref,
          Call.getPullRequestChanges e.repo.owner.login e.repo.name e.number,
          Call.createComment e.repo.owner.login e.repo.name e.number
            (FormatResponseRaw e.body e.htmlURL e.user.login
              "adding LGTM is restricted to approvers and reviewers in OWNERS files.")]) := by
    simp only [handle, ownersBranch, hpr, hstate, hact, GenericCommentActionCreated,
      hre, hauthor, hskip, hgp, hro, hch]
    simp [hpr, hstate, hact, GenericCommentActionCreated, hre, hauthor, hskip,
      hgp, hro, hch, hcond]
    intro hmem
    simp at hdeny
    exact absurd hmem hdeny
  refine ⟨mem_loadReviewers ro filenames x, heq, ?_⟩
  intro o r n l
  rw [heq]
  constructor <;> simp

/-- C9: witness — actor `mallory` is outside the approver/reviewer union
`["carol", "dave"]`, so the denial comment is the only call after the three
loads, and the union membership instance holds for `carol`. -/
theorem C9_ownership_union_witness :
    ("carol" ∈ loadReviewers
        ⟨fun _ => ["carol"], fun _ => ["dave"]⟩ ["a.go"] ↔
      ∃ f ∈ ["a.go"], "carol" ∈ ["carol"] ∨ "carol" ∈ ["dave"]) ∧
    handle envAllOk cfgSkipOrg (mkEvent "mallory" "bob" [] "/lgtm") =
      (Except.ok (),
        [Call.getPullRequest "org" "repo" 5,
          Call.loadRepoOwners "org" "repo" "master",
          Call.getPullRequestChanges "org" "repo" 5,
          Call.createComment "org" "repo" 5
            (FormatResponseRaw "/lgtm" "https://example.com/pr/5" "mallory"
              "adding LGTM is restricted to approvers and reviewers in OWNERS files.")]) :=
  ⟨(C9_ownership_union ⟨fun _ => ["carol"], fun _ => ["dave"]⟩ ["a.go"] "carol"
      envAllOk cfgSkipOrg (mkEvent "mallory" "bob" [] "/lgtm")
      ⟨false, 5, ⟨"master", sampleRepo⟩⟩ [⟨"a.go"⟩]
      rfl rfl rfl (by decide) rfl rfl rfl rfl rfl (by decide)).1,
    (C9_ownership_union ⟨fun _ => ["carol"], fun _ => ["dave"]⟩ ["a.go"] "carol"
      envAllOk cfgSkipOrg (mkEvent "mallory" "bob" [] "/lgtm")
      ⟨false, 5, ⟨"master", sampleRepo⟩⟩ [⟨"a.go"⟩]
      rfl rfl rfl (by decide) rfl rfl rfl rfl rfl (by decide)).2.1⟩

/-- C10: a non-author commenter whose login byte-for-byte matches an assignee,
on a repo not in the skip-collaborators list, passes authorization with no
assignment attempt and no IsCollaborator call and goes straight to label
reconciliation; and in general the automatic-assignment side effect occurs
only for commenters not already in the assignee set. -/
theorem C10_assignee_fast_path (env : Env) (config : Configuration)
    (e : GenericCommentEvent)
    (hpr : e.isPR = true) (hstate : e.issueState = "open")
    (hact : e.action = GenericCommentActionCreated)
    (hcmd : classify e.body ≠ Command.notACommand)
    (hauthor : (e.user.login == e.issueAuthor.login) = false)
    (hassignee : (e.assignees.any fun assignee =>
      assignee.login == e.user.login) = true)
    (hskip : skipCollaborators config e.repo.owner.login e.repo.name = false) :
    handle env config e =
      reconcile env e.repo.owner.login e.repo.name e.number (lgtmReMatch e.body) ∧
    (∀ (o r : String) (n : Int) (ls : List String),
      Call.assignIssue o r n ls ∉ (handle env config e).2) ∧
    (∀ o r l : String, Call.isCollaborator o r l ∉ (handle env config e).2) ∧
    (∀ (env' : Env) (config' : Configuration) (e' : GenericCommentEvent)
      (o r : String) (n : Int) (ls : List String),
      Call.assignIssue o r n ls ∈ (handle env' config' e').2 →
      (e'.assignees.any fun assignee => assignee.login == e'.user.login) = false) := by
  have heq : handle env config e =
      reconcile env e.repo.owner.login e.repo.name e.number (lgtmReMatch e.body) := by
    by_cases hre : lgtmReMatch e.body = true
    · simp [handle, hpr, hstate, hact, GenericCommentActionCreated, hre,
        hauthor, hassignee, hskip]
    · have hre' : lgtmReMatch e.body = false := by simpa using hre
      have hcan : lgtmCancelReMatch e.body = true := by
        rcases hcan' : lgtmCancelReMatch e.body
        · exact absurd (classify_eq_notACommand.mpr ⟨hre', hcan'⟩) hcmd
        · rfl
      simp [handle, hpr, hstate, hact, GenericCommentActionCreated, hre', hcan,
        hauthor, hassignee, hskip]
  refine ⟨heq, ?_, ?_, ?_⟩
  · intro o r n ls
    rw [heq]
    exact not_mem_reconcile _ _ _ _ _ _ rfl
  · intro o r l
    rw [heq]
    exact not_mem_reconcile _ _ _ _ _ _ rfl
  · intro env' config' e' o r n ls h
    exact (assignIssue_mem_handle h).1

/-- C10: witness — assignee `bob` (exact match) commenting `/lgtm` goes
straight to reconciliation, and no assignment call appears in the trace. -/
theorem C10_assignee_fast_path_witness :
    handle envAllOk cfgNone (mkEvent "bob" "alice" ["bob"] "/lgtm") =
      reconcile envAllOk "org" "repo" 5 true ∧
    Call.assignIssue "org" "repo" 5 ["bob"] ∉
      (handle envAllOk cfgNone (mkEvent "bob" "alice" ["bob"] "/lgtm")).2 :=
  ⟨(C10_assignee_fast_path envAllOk cfgNone (mkEvent "bob" "alice" ["bob"] "/lgtm")
      rfl rfl rfl (by decide) rfl (by decide) rfl).1,
    (C10_assignee_fast_path envAllOk cfgNone (mkEvent "bob" "alice" ["bob"] "/lgtm")
      rfl rfl rfl (by decide) rfl (by decide) rfl).2.1 "org" "repo" 5 ["bob"]⟩

end Lgtm
